import Mathlib

/-!
# Verification of the us-equity-analyzer aggregation pipeline

Shallow embedding of the repository's aggregation and fallback-resolution
pipeline (price-target normalization, aggregator fallback chains, the
analysis-result cache, momentum metrics, key-event classification and the
batch request-deduplication) together with proofs of the spec's claims.

Modelling conventions:
* JavaScript numbers (IEEE doubles) are modelled as exact rationals `ℚ`;
  `Math.round` is half-up rounding `⌊x + 1/2⌋`.
* A JavaScript value that only matters through `Number(x)` and nullish /
  truthiness tests is modelled by `JsVal`: `vNull` (null/undefined),
  `vNum q` (a value whose numeric coercion is the finite number `q`), and
  `vOther` (a non-nullish value whose numeric coercion is not finite).
* Asynchronous provider calls are modelled by their outcome
  (`Except String α` for a call that either throws an `Error` with a
  message or returns a value); the single-threaded event loop's
  run-to-completion semantics makes each synchronous code section one
  atomic step.
-/

namespace EquityAnalyzer

/-- A JavaScript value as seen through `Number(x)`, `??` and truthiness:
`vNull` is null/undefined, `vNum q` any value with finite numeric
coercion `q`, `vOther` any other non-nullish value (e.g. a non-numeric
string, whose `Number` is NaN). -/
inductive JsVal where
  | vNull : JsVal
  | vNum : ℚ → JsVal
  | vOther : JsVal
deriving DecidableEq, Repr

open JsVal

/-- JavaScript `a ?? b` (nullish coalescing). -/
def jsOr (a b : JsVal) : JsVal :=
  match a with
  | vNull => b
  | x => x

/-- `toNum` from src/lib/pricetarget.js line 5:
`const n = Number(x); return Number.isFinite(n) ? n : null`. -/
def toNum (x : JsVal) : Option ℚ :=
  match x with
  | vNum q => some q
  | _ => none

/-- JavaScript `Math.round`: round half-up to the nearest integer. -/
def jsRound (x : ℚ) : ℤ := Int.floor (x + 1/2)

/-- `Math.round(x*100)/100`: round to 2 decimal places. -/
def round2q (x : ℚ) : ℚ := (jsRound (x * 100) : ℚ) / 100

/-- `round2` from src/lib/pricetarget.js line 6:
`x==null ? null : Math.round(x*100)/100`; null is preserved. -/
def round2 (x : Option ℚ) : Option ℚ :=
  x.map round2q

/-- The raw price-target object handed to `normalizeTargets`
(src/lib/pricetarget.js line 8): the four numeric fields may each be
null, a finite number, or some other non-numeric value. -/
structure PTInput where
  source : Option String
  targetMean : JsVal
  targetMedian : JsVal
  targetHigh : JsVal
  targetLow : JsVal
deriving DecidableEq, Repr

/-- The completion steps of `normalizeTargets`
(src/lib/pricetarget.js lines 9-25), before the current-price clamp.
Returns `(mean, hi, lo)`.  Inside the `mean != null` block the source
tests the truthiness of `mean` (`mean ? _ : _`), which is false exactly
when `mean` is `0`. -/
def completeTargets (obj : PTInput) : Option ℚ × Option ℚ × Option ℚ :=
  let mean := toNum (jsOr obj.targetMean obj.targetMedian)
  let hi0 := toNum obj.targetHigh
  let lo0 := toNum obj.targetLow
  let step1 : Option ℚ × Option ℚ :=
    match mean, hi0, lo0 with
    | some m, none, none => (some (m * 1.15), some (m * 0.85))
    | some m, some h, none =>
        (some h, some (if m = 0 then h / 1.1 else min (m * 0.9) (h / 1.1)))
    | some m, none, some l =>
        (some (if m = 0 then l * 1.1 else max (m * 1.1) (l * 1.1)), some l)
    | _, h, l => (h, l)
  let hi1 := step1.1
  let lo1 := step1.2
  let lo2 := match hi1, lo1 with
    | some h, none => some (h / 1.2)
    | _, l => l
  let hi2 := match lo2, hi1 with
    | some l, none => some (l * 1.2)
    | _, h => h
  (mean, hi2, lo2)

/-- The current-price sanity clamp of `normalizeTargets`
(src/lib/pricetarget.js lines 27-31): if `cur > hi` then
`hi = cur * 1.05`; if `cur < lo` then `lo = cur * 0.95`. -/
def clampTargets (hi lo cur : Option ℚ) : Option ℚ × Option ℚ :=
  match cur with
  | none => (hi, lo)
  | some c =>
    (match hi with
     | some h => if c > h then some (c * 1.05) else some h
     | none => none,
     match lo with
     | some l => if c < l then some (c * 0.95) else some l
     | none => none)

/-- The normalized price-target record returned by `normalizeTargets`. -/
structure NormTargets where
  source : String
  targetHigh : Option ℚ
  targetLow : Option ℚ
  targetMean : Option ℚ
  targetMedian : Option ℚ
deriving DecidableEq, Repr

/-- `normalizeTargets` from src/lib/pricetarget.js lines 8-40. -/
def normalizeTargets (obj : PTInput) (current : JsVal) : NormTargets :=
  let c := completeTargets obj
  let clamped := clampTargets c.2.1 c.2.2 (toNum current)
  { source :=
      match obj.source with
      | some s => if s = "" then "aggregated" else s
      | none => "aggregated"
    targetHigh := round2 clamped.1
    targetLow := round2 clamped.2
    targetMean := round2 c.1
    targetMedian := round2 (toNum obj.targetMedian) }

/-- `getAggregatedPriceTarget` from src/lib/pricetarget.js lines 91-97,
with each provider call (`finnhubPriceTarget`, `yahooPriceTarget`,
`alphaVantageTarget`) modelled by its outcome: a value or a thrown error
message.  Providers are tried in that fixed order; each failure message
is pushed onto `errors`; if all fail the aggregator throws
`errors.join(' | ')`. -/
def getAggregatedPriceTarget (finnhubRes yahooRes alphaRes : Except String PTInput)
    (current : JsVal) : Except String NormTargets :=
  match finnhubRes with
  | .ok v => .ok (normalizeTargets v current)
  | .error e1 =>
    match yahooRes with
    | .ok v => .ok (normalizeTargets v current)
    | .error e2 =>
      match alphaRes with
      | .ok v => .ok (normalizeTargets v current)
      | .error e3 => .error (String.intercalate " | " [e1, e2, e3])

/-! ## Analysis store (src/lib/analysisStore.js) -/

/-- A stored row of the `analyses` table: the serialized result JSON and
its update timestamp (milliseconds).  The JSON round-trip
`JSON.parse(JSON.stringify v)` is modelled by keeping the serialized
payload itself as the stored value. -/
structure StoreRow where
  result_json : String
  updated_at : ℤ
  is_historical : Bool
deriving DecidableEq, Repr

/-- The sqlite table keyed by `(ticker, baseline_date, schema_version)`,
modelled as a point lookup. -/
def Store := String → String → String → Option StoreRow

/-- `versionKey` from the analysis store:
`(model && String(model).trim()) || 'default'` prefixed by
`analysis_v1:`.  A missing/empty/whitespace model falls back to
`default`. -/
def versionKey (model : Option String) : String :=
  let suffix :=
    match model with
    | none => "default"
    | some m => if m = "" ∨ m.trim = "" then "default" else m.trim
  "analysis_v1:" ++ suffix

/-- `getCachedAnalysis` from the analysis store: guards on falsy
`ticker`/`baselineDate`/`ttlMs`, looks the row up by
`(ticker, baselineDate, versionKey model)`, computes
`age = Date.now() - updated_at` and returns null when `age > ttlMs`,
otherwise the parsed stored result. -/
def getCachedAnalysis (db : Store) (now : ℤ) (ticker baselineDate : String)
    (ttlMs : ℤ) (model : Option String) : Option String :=
  if ticker = "" ∨ baselineDate = "" ∨ ttlMs = 0 then none
  else
    match db ticker baselineDate (versionKey model) with
    | none => none
    | some row => if now - row.updated_at > ttlMs then none else some row.result_json

/-! ## Calendar dates (dayjs day-granularity arithmetic) -/

/-- A calendar date at day granularity, as compared by dayjs
(`isSame`/`isBefore`/`isBetween` with unit `'day'`). -/
structure CalDate where
  year : ℕ
  month : ℕ
  day : ℕ
deriving DecidableEq, Repr

/-- Day-granularity `a <= b` on calendar dates (lexicographic on
year, month, day), matching dayjs timestamp comparison for valid
dates. -/
def dateLeb (a b : CalDate) : Bool :=
  if a.year < b.year then true
  else if b.year < a.year then false
  else if a.month < b.month then true
  else if b.month < a.month then false
  else decide (a.day ≤ b.day)

/-- Gregorian leap-year test. -/
def isLeap (y : ℕ) : Bool :=
  y % 4 = 0 ∧ (y % 100 ≠ 0 ∨ y % 400 = 0)

/-- Days in a month, used by dayjs to clamp the day-of-month when
adding or subtracting months. -/
def daysInMonth (y m : ℕ) : ℕ :=
  if m = 2 then (if isLeap y then 29 else 28)
  else if m = 4 ∨ m = 6 ∨ m = 9 ∨ m = 11 then 30
  else 31

/-- dayjs `add(1,'month')`: increment the month (with year carry) and
clamp the day-of-month. -/
def addMonth1 (d : CalDate) : CalDate :=
  let ym := if d.month = 12 then (d.year + 1, 1) else (d.year, d.month + 1)
  ⟨ym.1, ym.2, min d.day (daysInMonth ym.1 ym.2)⟩

/-- dayjs `subtract(1,'month')`: decrement the month (with year borrow)
and clamp the day-of-month. -/
def subMonth1 (d : CalDate) : CalDate :=
  let ym := if d.month = 1 then (d.year - 1, 12) else (d.year, d.month - 1)
  ⟨ym.1, ym.2, min d.day (daysInMonth ym.1 ym.2)⟩

/-! ## Momentum metrics engine (momentum section of the source) -/

/-- One row of the newest-first daily price/volume series. -/
structure SeriesRow where
  date : CalDate
  close : ℚ
  high : ℚ
  low : ℚ
  volume : ℚ
deriving DecidableEq, Repr

/-- Placeholder row used only to read from a list whose length bound
already guarantees the index is valid. -/
def rowDefault : SeriesRow := ⟨⟨0, 0, 0⟩, 0, 0, 0, 0⟩

/-- `clamp(val, min, max) = Math.max(min, Math.min(max, val))`. -/
def clamp (val lo hi : ℚ) : ℚ := max lo (min hi val)

/-- `pickEtf`: the fixed ticker→ETF lookup table with `SPY` as the
default basket. -/
def pickEtf (symbol : String) : String :=
  let upper := symbol.toUpper
  if ["NVDA", "AMD", "TSM", "ASML", "AVGO", "QCOM", "MU", "INTC", "SMCI"].contains upper
    then "SOXX"
  else if ["UNH", "LLY", "JNJ", "ABBV", "PFE", "MRK", "TMO"].contains upper then "XLV"
  else if ["JPM", "GS", "BAC", "C", "MS", "BLK"].contains upper then "XLF"
  else if ["AAPL", "MSFT", "GOOGL", "META", "AMZN", "NFLX", "ADBE", "CRM", "NOW", "SNOW"].contains upper
    then "QQQ"
  else "SPY"

/-- `percentChange(series, idx)`: `close[0]/close[idx] - 1`, null when
the series is too short or the base close is `0`. -/
def percentChange (series : List SeriesRow) (idx : ℕ) : Option ℚ :=
  if series.length ≤ idx then none
  else
    let current := series.getD 0 rowDefault
    let base := series.getD idx rowDefault
    if base.close = 0 then none else some (current.close / base.close - 1)

/-- `simpleMovingAverage(series, period)`: mean of the first `period`
closes, null if fewer rows exist. -/
def simpleMovingAverage (series : List SeriesRow) (period : ℕ) : Option ℚ :=
  if series.length < period then none
  else some (((series.take period).map SeriesRow.close).sum / period)

/-- Sum of the positive day-over-day diffs among the `period` most
recent diffs (the `gains` accumulator of `calcRSI`). -/
def rsiGains (series : List SeriesRow) (period : ℕ) : ℚ :=
  ((List.range period).map (fun i =>
    let diff := (series.getD i rowDefault).close - (series.getD (i + 1) rowDefault).close
    if diff ≥ 0 then diff else 0)).sum

/-- Sum of the absolute negative day-over-day diffs among the `period`
most recent diffs (the `losses` accumulator of `calcRSI`). -/
def rsiLosses (series : List SeriesRow) (period : ℕ) : ℚ :=
  ((List.range period).map (fun i =>
    let diff := (series.getD i rowDefault).close - (series.getD (i + 1) rowDefault).close
    if diff ≥ 0 then 0 else -diff)).sum

/-- `calcRSI(series, period)`: Wilder-style RSI over the `period` most
recent day-over-day diffs; null when `series.length <= period`; exactly
`100` when the average loss is zero. -/
def calcRSI (series : List SeriesRow) (period : ℕ) : Option ℚ :=
  if series.length ≤ period then none
  else
    let avgGain := rsiGains series period / period
    let avgLoss := rsiLosses series period / period
    if avgLoss = 0 then some 100
    else some (100 - 100 / (1 + avgGain / avgLoss))

/-- `calcATR(series, period)`: mean true range over the `period` most
recent rows, null when `series.length <= period`. -/
def calcATR (series : List SeriesRow) (period : ℕ) : Option ℚ :=
  if series.length ≤ period then none
  else
    some (((List.range period).map (fun i =>
      let current := series.getD i rowDefault
      let prev := series.getD (i + 1) current
      max (current.high - current.low)
        (max (abs (current.high - prev.close)) (abs (current.low - prev.close))))).sum
      / period)

/-- `avgVolume(series, period)`: mean volume of the first `period` rows,
null if fewer rows exist. -/
def avgVolume (series : List SeriesRow) (period : ℕ) : Option ℚ :=
  if series.length < period then none
  else some (((series.take period).map SeriesRow.volume).sum / period)

/-- `sliceByDate(series, baselineDate)`: drop leading rows that are
strictly after the baseline date (the first row whose date
`isSame`-or-`isBefore` the baseline starts the slice); keep the whole
series when the baseline is missing or no such row exists. -/
def sliceByDate (series : List SeriesRow) (baselineDate : Option CalDate) : List SeriesRow :=
  match baselineDate with
  | none => series
  | some target =>
    match series.findIdx? (fun row => dateLeb row.date target) with
    | some idx => series.drop idx
    | none => series

/-- The metrics object assembled by `computeMomentumMetrics` (field
`volume_ratio` of the source is `volumeRat` here). -/
structure Metrics where
  score : ℤ
  trend : String
  m3 : Option ℚ
  m6 : Option ℚ
  m12 : Option ℚ
  price : ℚ
  ma20 : Option ℚ
  ma50 : Option ℚ
  ma200 : Option ℚ
  rsi14 : Option ℚ
  atr14 : Option ℚ
  volumeRat : Option ℚ
  above50 : Option Bool
  above200 : Option Bool
  etfSymbol : String
  etfReturn3m : Option ℚ
  reference_date : CalDate
deriving DecidableEq, Repr

/-- `computeMomentumMetrics` on a cache miss, with the two network
fetches modelled by their outcomes: `series` is the result of
`fetchDailySeries(symbol)` (null on total fetch failure) and
`etfSeries` the result of `fetchDailySeries(etf.symbol)` (null when it
fails or returns no rows; its errors are swallowed).  Requires at least
60 rows after slicing to the baseline date, otherwise returns null. -/
def computeMomentumMetrics (symbol : String) (series : Option (List SeriesRow))
    (baselineDate : Option CalDate) (etfSeries : Option (List SeriesRow)) : Option Metrics :=
  match series with
  | none => none
  | some s =>
    if s.length = 0 then none
    else
      let sliced := sliceByDate s baselineDate
      if sliced.length < 60 then none
      else
        let latest := sliced.getD 0 rowDefault
        let m3 := percentChange sliced 63
        let m6 := percentChange sliced 126
        let m12 := percentChange sliced 252
        let ma20 := simpleMovingAverage sliced 20
        let ma50 := simpleMovingAverage sliced 50
        let ma200 := simpleMovingAverage sliced 200
        let rsi14 := calcRSI sliced 14
        let atr14 := calcATR sliced 14
        let vol5 := avgVolume sliced 5
        let vol30 := avgVolume sliced 30
        let volumeRat :=
          match vol5, vol30 with
          | some a, some b => if a = 0 ∨ b = 0 then none else some (a / b)
          | _, _ => none
        let above50 := ma50.map (fun v => decide (latest.close > v))
        let above200 := ma200.map (fun v => decide (latest.close > v))
        let m3gt : Bool := match m3 with | some r => decide (r > 0.10) | none => false
        let m3lt : Bool := match m3 with | some r => decide (r < -0.05) | none => false
        let trend1 :=
          if above50 = some true ∧ above200 = some true ∧ m3gt = true then "強勢" else "中性"
        let trend :=
          if above50 = some false ∧ above200 = some false ∧ m3lt = true then "弱勢" else trend1
        let score0 : ℚ := 50
        let score1 := match m3 with | some r => score0 + clamp (r * 200) (-20) 20 | none => score0
        let score2 := match m6 with | some r => score1 + clamp (r * 150) (-15) 15 | none => score1
        let score3 := match m12 with | some r => score2 + clamp (r * 100) (-10) 10 | none => score2
        let score4 := match rsi14 with | some r => score3 + clamp ((r - 50) / 2) (-10) 10 | none => score3
        let score5 := match volumeRat with | some r => score4 + clamp ((r - 1) * 20) (-10) 10 | none => score4
        let score6 := if above50 = some true then score5 + 5
          else if above50 = some false then score5 - 5 else score5
        let score7 := if above200 = some true then score6 + 5
          else if above200 = some false then score6 - 5 else score6
        let momentumScore := jsRound (clamp score7 0 100)
        let etfReturn3m :=
          match etfSeries with
          | none => none
          | some es =>
            let etfSlice := sliceByDate es baselineDate
            if etfSlice.length > 63 then percentChange etfSlice 63 else none
        some
          { score := momentumScore
            trend := trend
            m3 := m3
            m6 := m6
            m12 := m12
            price := latest.close
            ma20 := ma20
            ma50 := ma50
            ma200 := ma200
            rsi14 := rsi14
            atr14 := atr14
            volumeRat := volumeRat
            above50 := above50
            above200 := above200
            etfSymbol := pickEtf symbol
            etfReturn3m := etfReturn3m
            reference_date := latest.date }

/-! ## Key-event aggregator (key-event section of the source) -/

/-- A normalized event of the key-event aggregator
(`{type, date, title, summary, source}`); `date` is `none` when the
raw date is missing or does not parse to a valid dayjs date. -/
structure Event where
  etype : String
  date : Option CalDate
  title : String
  summary : String
  source : String
deriving DecidableEq, Repr

/-- The date key used by `filterRecent`'s sort comparator for an event
that survived the validity filter. -/
def eventDate (e : Event) : CalDate := e.date.getD ⟨0, 0, 0⟩

/-- Stable insertion into a newest-first list, matching the stable
`Array.prototype.sort` with comparator `dayjs(b.date) - dayjs(a.date)`. -/
def insertDesc (e : Event) : List Event → List Event
  | [] => [e]
  | x :: xs => if dateLeb (eventDate x) (eventDate e) then e :: x :: xs else x :: insertDesc e xs

/-- Stable newest-first sort by event date. -/
def sortDesc : List Event → List Event
  | [] => []
  | x :: xs => insertDesc x (sortDesc xs)

/-- `filterRecent(events, baselineDate)`: keep events with a valid date
inside the inclusive day-granularity window
`[baseline - 1 month, baseline + 1 month]`, sorted newest first. -/
def filterRecent (events : List Event) (baselineDate : CalDate) : List Event :=
  let start := subMonth1 baselineDate
  let stop := addMonth1 baselineDate
  sortDesc (events.filter (fun evt =>
    match evt.date with
    | none => false
    | some d => dateLeb start d && dateLeb d stop))

/-- The classification result `{primary, details, summary}`. -/
structure Classified where
  primary : Option Event
  details : List Event
  summary : String
deriving DecidableEq, Repr

/-- The already-guarded parse of the LLM classification JSON
(`parsed.primary || null`, `Array.isArray(parsed.details)`,
`parsed.summary || ''`). -/
structure ClsParsed where
  primary : Option Event
  details : List Event
  summary : String
deriving DecidableEq, Repr

/-- `classifyEvents` with the LLM call modelled by its outcome `llm`
(an error covers a thrown call, an empty response and a JSON parse
failure).  An empty `openKey` is falsy (`!openKey`): no LLM credential.
Order of the guards follows the source: empty event list first, then
the missing-credential fallback, then the LLM path with its catch
fallback. -/
def classifyEvents (events : List Event) (openKey : String)
    (llm : Except String ClsParsed) : Classified :=
  if events.isEmpty then
    { primary := none, details := [], summary := "（近一月無重大事件）" }
  else if openKey = "" then
    { primary := events.head?, details := events.tail, summary := "（缺少 LLM 金鑰，顯示近期事件列表）" }
  else
    match llm with
    | .ok parsed => { primary := parsed.primary, details := parsed.details, summary := parsed.summary }
    | .error _ =>
      { primary := events.head?, details := events.tail, summary := "（事件分類失敗，列出近期事件）" }

/-- The key-event bundle `{primary, details, summary, raw_events}`. -/
structure Bundle where
  primary : Option Event
  details : List Event
  summary : String
  raw_events : List Event
deriving DecidableEq, Repr

/-- `buildKeyEvents` with its I/O modelled by outcomes: `cached` is the
bundle-cache lookup, `fetched` the combined normalized event list from
the news/filings/earnings fetch chain (an error covers any throw inside
the `try` block), `llm` the classification call outcome.  On a fetch
error the catch returns the degraded fallback bundle; otherwise the
events are windowed, capped at 10, classified, and returned with the
raw list. -/
def buildKeyEvents (cached : Option Bundle) (fetched : Except String (List Event))
    (baselineDate : CalDate) (openKey : String) (llm : Except String ClsParsed) : Bundle :=
  match cached with
  | some b => b
  | none =>
    match fetched with
    | .error _ =>
      { primary := none, details := [], summary := "無法取得重大事件資料。", raw_events := [] }
    | .ok combined =>
      let recent := (filterRecent combined baselineDate).take 10
      let c := classifyEvents recent openKey llm
      { primary := c.primary, details := c.details, summary := c.summary, raw_events := recent }

/-! ## Batch request deduplication (the `/api/batch` handler) -/

/-- `resolveModelName(requested)`: empty/whitespace input falls back to
the default model; otherwise the trimmed name must be in the allow-list
(when the allow-list is empty the trimmed name is used as is). -/
def resolveModelName (defaultModel : String) (allowed : List String) (requested : String) : String :=
  let trimmed := requested.trim
  if trimmed = "" then defaultModel
  else if allowed = [] then trimmed
  else if allowed.contains trimmed then trimmed else defaultModel

/-- One parsed batch row `{ticker, date, model}` (the date is already
normalized by `parseBatchFile`). -/
structure BatchTask where
  ticker : String
  date : String
  model : String
deriving DecidableEq, Repr

/-- The memo key of the batch handler: the uppercased ticker, the
normalized date and the resolved model name, joined by a double
underscore. -/
def batchKey (defaultModel : String) (allowed : List String) (task : BatchTask) : String :=
  task.ticker.toUpper ++ "__" ++ task.date ++ "__" ++
    resolveModelName defaultModel allowed task.model

/-- The memo map of the batch handler: key → the id of the
`performAnalysis` invocation started for that key.  Each list entry
records one invocation. -/
abbrev Memo := List (String × ℕ)

/-- First-match lookup, as `Map.get`. -/
def memoLookup (k : String) : Memo → Option ℕ
  | [] => none
  | (k', v) :: rest => if k' = k then some v else memoLookup k rest

/-- The synchronous dedup section of one batch mapper call: between
`memo.has(key)` and `memo.set(key, ...)` there is no `await`, so under
the event loop's run-to-completion semantics the section is one atomic
step.  It returns the updated memo, the next fresh invocation id and
the invocation id whose outcome this row will await. -/
def dedupStep (memo : Memo) (nextId : ℕ) (key : String) : Memo × ℕ × ℕ :=
  match memoLookup key memo with
  | some cid => (memo, nextId, cid)
  | none => ((key, nextId) :: memo, nextId + 1, nextId)

/-- A whole batch run: the dedup steps of the mapper calls execute in
some sequential order (worker interleaving only permutes it, which the
theorems quantify over).  Returns the final memo (whose entries are
exactly the `performAnalysis` invocations started) and, per task in
processing order, the invocation id whose outcome the row receives. -/
def runBatch (defaultModel : String) (allowed : List String) :
    List BatchTask → Memo → ℕ → Memo × List ℕ
  | [], memo, _ => (memo, [])
  | t :: ts, memo, nextId =>
    let step := dedupStep memo nextId (batchKey defaultModel allowed t)
    let rest := runBatch defaultModel allowed ts step.1 step.2.1
    (rest.1, step.2.2 :: rest.2)

/-! ## Theorems: price-target normalization and aggregation -/

/-- Rounding to 2 decimals preserves presence (null stays null, a
number stays a number). -/
theorem round2_isSome (x : Option ℚ) : (round2 x).isSome = x.isSome := by
  cases x <;> simp [round2]

/-- The current-price clamp preserves presence of both bounds. -/
theorem clampTargets_isSome (hi lo cur : Option ℚ) :
    (clampTargets hi lo cur).1.isSome = hi.isSome ∧
    (clampTargets hi lo cur).2.isSome = lo.isSome := by
  cases cur <;> cases hi <;> cases lo <;> simp [clampTargets] <;> split_ifs <;> simp

/-- Completion when only the mean is numeric: a ±15% band. -/
theorem completeTargets_mean_only (obj : PTInput) (m : ℚ)
    (hm : toNum (jsOr obj.targetMean obj.targetMedian) = some m)
    (hh : toNum obj.targetHigh = none) (hl : toNum obj.targetLow = none) :
    completeTargets obj = (some m, some (m * 1.15), some (m * 0.85)) := by
  simp [completeTargets, hm, hh, hl]

/-- Completion when only the high is numeric: step 3's mean-present
branch is skipped entirely and step 5 sets `low = high / 1.2`. -/
theorem completeTargets_high_only (obj : PTInput) (h : ℚ)
    (hm : toNum (jsOr obj.targetMean obj.targetMedian) = none)
    (hh : toNum obj.targetHigh = some h) (hl : toNum obj.targetLow = none) :
    completeTargets obj = (none, some h, some (h / 1.2)) := by
  simp [completeTargets, hm, hh, hl]

/-- C1 counterexample: the claim's own NVDA scenario contradicts the
code.  With `targetMean = 229.67`, no high/low, and current price
`188.15`, the synthesized low `mean * 0.85 = 195.2195` is *above* the
current price, so the sanity clamp fires and the returned low is
`round2(188.15 * 0.95) = 178.74`, not `195.22`.  (The high is `264.12`
as claimed.) -/
theorem normalizeTargets_nvda_counterexample :
    (normalizeTargets ⟨none, JsVal.vNum 229.67, JsVal.vNull, JsVal.vNull, JsVal.vNull⟩
        (JsVal.vNum 188.15)).targetHigh = some 264.12 ∧
    (normalizeTargets ⟨none, JsVal.vNum 229.67, JsVal.vNull, JsVal.vNull, JsVal.vNull⟩
        (JsVal.vNum 188.15)).targetLow = some 178.74 ∧
    (normalizeTargets ⟨none, JsVal.vNum 229.67, JsVal.vNull, JsVal.vNull, JsVal.vNull⟩
        (JsVal.vNum 188.15)).targetLow ≠ some 195.22 := by
  have hlo : (normalizeTargets ⟨none, JsVal.vNum 229.67, JsVal.vNull, JsVal.vNull, JsVal.vNull⟩
      (JsVal.vNum 188.15)).targetLow = some 178.74 := by
    simp only [normalizeTargets, completeTargets, clampTargets, round2, toNum, jsOr]
    norm_num [round2q, jsRound]
  refine ⟨?_, hlo, ?_⟩
  · simp only [normalizeTargets, completeTargets, clampTargets, round2, toNum, jsOr]
    norm_num [round2q, jsRound]
  · rw [hlo]
    simp only [ne_eq, Option.some.injEq]
    norm_num

/-- C1 (amended): when the mean (or the median standing in for it) is
the only numeric target field, the returned band is
`round2(mean*1.15)` / `round2(mean*0.85)` — provided any supplied
finite current price lies inside `[mean*0.85, mean*1.15]`, since
otherwise the sanity clamp replaces the corresponding bound. -/
theorem normalizeTargets_mean_only (obj : PTInput) (current : JsVal) (m : ℚ)
    (hm : toNum (jsOr obj.targetMean obj.targetMedian) = some m)
    (hh : toNum obj.targetHigh = none) (hl : toNum obj.targetLow = none)
    (hcur : ∀ c, toNum current = some c → m * 0.85 ≤ c ∧ c ≤ m * 1.15) :
    (normalizeTargets obj current).targetHigh = some (round2q (m * 1.15)) ∧
    (normalizeTargets obj current).targetLow = some (round2q (m * 0.85)) := by
  have hc := completeTargets_mean_only obj m hm hh hl
  cases htc : toNum current with
  | none => simp [normalizeTargets, hc, htc, clampTargets, round2]
  | some c =>
    obtain ⟨h1, h2⟩ := hcur c htc
    simp [normalizeTargets, hc, htc, clampTargets, round2, not_lt.mpr h1, not_lt.mpr h2]

/-- C1 witness: mean `229.67` with a current price of `250` (inside the
band): high `264.12`, low `195.22`. -/
theorem normalizeTargets_mean_only_witness :
    (normalizeTargets ⟨none, JsVal.vNum 229.67, JsVal.vNull, JsVal.vNull, JsVal.vNull⟩
        (JsVal.vNum 250)).targetHigh = some 264.12 ∧
    (normalizeTargets ⟨none, JsVal.vNum 229.67, JsVal.vNull, JsVal.vNull, JsVal.vNull⟩
        (JsVal.vNum 250)).targetLow = some 195.22 := by
  have h := normalizeTargets_mean_only
    ⟨none, JsVal.vNum 229.67, JsVal.vNull, JsVal.vNull, JsVal.vNull⟩ (JsVal.vNum 250) 229.67
    rfl rfl rfl
    (by
      intro c hc
      simp only [toNum, Option.some.injEq] at hc
      subst hc
      constructor <;> norm_num)
  rw [h.1, h.2]
  constructor <;> (simp only [round2q, jsRound]; norm_num)

/-- C2: if after completion the high is present and a finite current
price exceeds it, the returned high is `round2(current * 1.05)`;
symmetrically, if the completed low is above the current price, the
returned low is `round2(current * 0.95)`. -/
theorem normalizeTargets_clamp (obj : PTInput) (current : JsVal) (c : ℚ)
    (hcur : toNum current = some c) :
    (∀ h, (completeTargets obj).2.1 = some h → h < c →
      (normalizeTargets obj current).targetHigh = some (round2q (c * 1.05))) ∧
    (∀ l, (completeTargets obj).2.2 = some l → c < l →
      (normalizeTargets obj current).targetLow = some (round2q (c * 0.95))) := by
  constructor
  · intro h hh hlt
    simp [normalizeTargets, clampTargets, hcur, hh, hlt, round2]
  · intro l hl hlt
    simp [normalizeTargets, clampTargets, hcur, hl, hlt, round2]

/-- C2 witness: completed band `high = 100`, `low = 300` with current
price `200`: both clamps fire, giving `210` and `190`. -/
theorem normalizeTargets_clamp_witness :
    (normalizeTargets ⟨none, JsVal.vNull, JsVal.vNull, JsVal.vNum 100, JsVal.vNum 300⟩
        (JsVal.vNum 200)).targetHigh = some 210 ∧
    (normalizeTargets ⟨none, JsVal.vNull, JsVal.vNull, JsVal.vNum 100, JsVal.vNum 300⟩
        (JsVal.vNum 200)).targetLow = some 190 := by
  have h := normalizeTargets_clamp
    ⟨none, JsVal.vNull, JsVal.vNull, JsVal.vNum 100, JsVal.vNum 300⟩ (JsVal.vNum 200) 200 rfl
  constructor
  · have hh := h.1 100 rfl (by norm_num)
    rw [hh]
    simp only [round2q, jsRound]
    norm_num
  · have hl := h.2 300 rfl (by norm_num)
    rw [hl]
    simp only [round2q, jsRound]
    norm_num

/-- C3 counterexample: with `targetHigh = 110` and no other numeric
field, the mean-null guard skips the whole step-3 block, and the
returned low is `round2(110 / 1.2) = 91.67`, not `110 / 1.1 = 100`. -/
theorem normalizeTargets_high_only_counterexample :
    (normalizeTargets ⟨none, JsVal.vNull, JsVal.vNull, JsVal.vNum 110, JsVal.vNull⟩
        JsVal.vNull).targetLow = some 91.67 ∧
    (normalizeTargets ⟨none, JsVal.vNull, JsVal.vNull, JsVal.vNum 110, JsVal.vNull⟩
        JsVal.vNull).targetLow ≠ some 100 := by
  have hlo : (normalizeTargets ⟨none, JsVal.vNull, JsVal.vNull, JsVal.vNum 110, JsVal.vNull⟩
      JsVal.vNull).targetLow = some 91.67 := by
    simp only [normalizeTargets, completeTargets, clampTargets, round2, toNum, jsOr]
    norm_num [round2q, jsRound]
  refine ⟨hlo, ?_⟩
  rw [hlo]
  simp only [ne_eq, Option.some.injEq]
  norm_num

/-- C3 (amended): when the high is the only numeric field among
mean/median/high/low, the returned low is `round2(high / 1.2)` (the
step-5 rule; step 3's `high / 1.1` only applies when a mean is present),
provided any supplied finite current price is at least `high / 1.2` so
the low clamp does not fire. -/
theorem normalizeTargets_high_only (obj : PTInput) (current : JsVal) (h : ℚ)
    (hm : toNum (jsOr obj.targetMean obj.targetMedian) = none)
    (hh : toNum obj.targetHigh = some h) (hl : toNum obj.targetLow = none)
    (hcur : ∀ c, toNum current = some c → h / 1.2 ≤ c) :
    (normalizeTargets obj current).targetLow = some (round2q (h / 1.2)) := by
  have hc := completeTargets_high_only obj h hm hh hl
  cases htc : toNum current with
  | none => simp [normalizeTargets, hc, htc, clampTargets, round2]
  | some c =>
    have := hcur c htc
    simp [normalizeTargets, hc, htc, clampTargets, round2, not_lt.mpr this]

/-- C3 witness: high `110` alone, no current price: low `91.67`. -/
theorem normalizeTargets_high_only_witness :
    (normalizeTargets ⟨none, JsVal.vNull, JsVal.vNull, JsVal.vNum 110, JsVal.vNull⟩
        JsVal.vNull).targetLow = some 91.67 := by
  have h := normalizeTargets_high_only
    ⟨none, JsVal.vNull, JsVal.vNull, JsVal.vNum 110, JsVal.vNull⟩ JsVal.vNull 110
    rfl rfl rfl (by intro c hc; simp [toNum] at hc)
  rw [h]
  simp only [round2q, jsRound]
  norm_num

/-- Completion yields both bounds whenever the selected mean
(`targetMean ?? targetMedian`), the high or the low is numeric. -/
theorem completeTargets_isSome (obj : PTInput)
    (hyp : (toNum (jsOr obj.targetMean obj.targetMedian)).isSome = true ∨
      (toNum obj.targetHigh).isSome = true ∨ (toNum obj.targetLow).isSome = true) :
    (completeTargets obj).2.1.isSome = true ∧ (completeTargets obj).2.2.isSome = true := by
  rcases hmean : toNum (jsOr obj.targetMean obj.targetMedian) with _ | m <;>
    rcases hh : toNum obj.targetHigh with _ | h <;>
      rcases hl : toNum obj.targetLow with _ | l
  · rw [hmean, hh, hl] at hyp
    simp at hyp
  all_goals simp [completeTargets, hmean, hh, hl]

/-- C10 counterexample: `targetMean ?? targetMedian` skips the median
only when the mean is nullish.  With a non-nullish non-numeric
`targetMean` and a numeric `targetMedian = 5`, the median is ignored,
no completion happens, and both returned bounds are null even though
one of the four input fields is a finite number. -/
theorem normalizeTargets_median_skipped_counterexample :
    toNum (PTInput.targetMedian ⟨none, JsVal.vOther, JsVal.vNum 5, JsVal.vNull, JsVal.vNull⟩)
        = some 5 ∧
    (normalizeTargets ⟨none, JsVal.vOther, JsVal.vNum 5, JsVal.vNull, JsVal.vNull⟩
        JsVal.vNull).targetHigh = none ∧
    (normalizeTargets ⟨none, JsVal.vOther, JsVal.vNum 5, JsVal.vNull, JsVal.vNull⟩
        JsVal.vNull).targetLow = none :=
  ⟨rfl, rfl, rfl⟩

/-- C10 (amended): if the selected mean (`targetMean ?? targetMedian`,
so the median counts only when the mean is nullish), the high or the
low is a finite number, both returned bounds are non-null; when all
four input fields are null or non-numeric, all four numeric output
fields are null. -/
theorem normalizeTargets_completion_invariant (obj : PTInput) (current : JsVal) :
    (((toNum (jsOr obj.targetMean obj.targetMedian)).isSome = true ∨
        (toNum obj.targetHigh).isSome = true ∨ (toNum obj.targetLow).isSome = true) →
      (normalizeTargets obj current).targetHigh.isSome = true ∧
      (normalizeTargets obj current).targetLow.isSome = true) ∧
    (toNum obj.targetMean = none → toNum obj.targetMedian = none →
      toNum obj.targetHigh = none → toNum obj.targetLow = none →
      (normalizeTargets obj current).targetHigh = none ∧
      (normalizeTargets obj current).targetLow = none ∧
      (normalizeTargets obj current).targetMean = none ∧
      (normalizeTargets obj current).targetMedian = none) := by
  constructor
  · intro hyp
    obtain ⟨h1, h2⟩ := completeTargets_isSome obj hyp
    have hcl := clampTargets_isSome (completeTargets obj).2.1 (completeTargets obj).2.2
      (toNum current)
    constructor
    · simpa [normalizeTargets, round2_isSome, hcl.1] using h1
    · simpa [normalizeTargets, round2_isSome, hcl.2] using h2
  · intro h1 h2 h3 h4
    have hmean : toNum (jsOr obj.targetMean obj.targetMedian) = none := by
      rcases hm : obj.targetMean with _ | q | _
      · simpa [jsOr, hm] using h2
      · rw [hm] at h1
        simp [toNum] at h1
      · simp [jsOr, hm, toNum]
    have hc : completeTargets obj = (none, none, none) := by
      simp [completeTargets, hmean, h3, h4]
    cases htc : toNum current with
    | none => simp [normalizeTargets, hc, htc, clampTargets, round2, h2]
    | some c => simp [normalizeTargets, hc, htc, clampTargets, round2, h2]

/-- C10 witness: a lone numeric median (with nullish mean) produces
both bounds; an all-null input produces all-null numeric outputs. -/
theorem normalizeTargets_completion_invariant_witness :
    ((normalizeTargets ⟨none, JsVal.vNull, JsVal.vNum 7, JsVal.vNull, JsVal.vNull⟩
        JsVal.vNull).targetHigh.isSome = true ∧
     (normalizeTargets ⟨none, JsVal.vNull, JsVal.vNum 7, JsVal.vNull, JsVal.vNull⟩
        JsVal.vNull).targetLow.isSome = true) ∧
    ((normalizeTargets ⟨none, JsVal.vNull, JsVal.vNull, JsVal.vNull, JsVal.vNull⟩
        JsVal.vNull).targetHigh = none ∧
     (normalizeTargets ⟨none, JsVal.vNull, JsVal.vNull, JsVal.vNull, JsVal.vNull⟩
        JsVal.vNull).targetLow = none ∧
     (normalizeTargets ⟨none, JsVal.vNull, JsVal.vNull, JsVal.vNull, JsVal.vNull⟩
        JsVal.vNull).targetMean = none ∧
     (normalizeTargets ⟨none, JsVal.vNull, JsVal.vNull, JsVal.vNull, JsVal.vNull⟩
        JsVal.vNull).targetMedian = none) :=
  ⟨(normalizeTargets_completion_invariant
      ⟨none, JsVal.vNull, JsVal.vNum 7, JsVal.vNull, JsVal.vNull⟩ JsVal.vNull).1 (Or.inl rfl),
   (normalizeTargets_completion_invariant
      ⟨none, JsVal.vNull, JsVal.vNull, JsVal.vNull, JsVal.vNull⟩ JsVal.vNull).2 rfl rfl rfl rfl⟩

/-- C4: the price-target aggregator tries finnhub, then yahoo, then
alphavantage.  A success returns that provider's normalized targets and
makes the later providers irrelevant; it throws only when all three
fail, and the thrown message is all three failure reasons joined by
`" | "`. -/
theorem getAggregatedPriceTarget_fallback (f y a : Except String PTInput) (cur : JsVal) :
    (∀ v, f = .ok v →
      getAggregatedPriceTarget f y a cur = .ok (normalizeTargets v cur) ∧
      ∀ y' a', getAggregatedPriceTarget f y' a' cur = .ok (normalizeTargets v cur)) ∧
    (∀ e1 v, f = .error e1 → y = .ok v →
      getAggregatedPriceTarget f y a cur = .ok (normalizeTargets v cur) ∧
      ∀ a', getAggregatedPriceTarget f y a' cur = .ok (normalizeTargets v cur)) ∧
    (∀ e1 e2 v, f = .error e1 → y = .error e2 → a = .ok v →
      getAggregatedPriceTarget f y a cur = .ok (normalizeTargets v cur)) ∧
    (∀ e1 e2 e3, f = .error e1 → y = .error e2 → a = .error e3 →
      getAggregatedPriceTarget f y a cur = .error (e1 ++ " | " ++ e2 ++ " | " ++ e3)) := by
  refine ⟨?_, ?_, ?_, ?_⟩
  · intro v hf
    subst hf
    exact ⟨rfl, fun y' a' => rfl⟩
  · intro e1 v hf hy
    subst hf; subst hy
    exact ⟨rfl, fun a' => rfl⟩
  · intro e1 e2 v hf hy ha
    subst hf; subst hy; subst ha
    rfl
  · intro e1 e2 e3 hf hy ha
    subst hf; subst hy; subst ha
    rfl

/-- C4 witness: all three providers failing yields the three reasons
joined in order; a finnhub success is returned as is regardless of the
other providers. -/
theorem getAggregatedPriceTarget_fallback_witness :
    getAggregatedPriceTarget (.error "[FINNHUB] boom") (.error "[YAHOO] nope")
        (.error "[ALPHAVANTAGE] Missing API key") JsVal.vNull
      = .error "[FINNHUB] boom | [YAHOO] nope | [ALPHAVANTAGE] Missing API key" ∧
    getAggregatedPriceTarget (.ok ⟨some "finnhub", JsVal.vNum 10, JsVal.vNull, JsVal.vNull,
        JsVal.vNull⟩) (.error "x") (.error "y") JsVal.vNull
      = .ok (normalizeTargets ⟨some "finnhub", JsVal.vNum 10, JsVal.vNull, JsVal.vNull,
          JsVal.vNull⟩ JsVal.vNull) :=
  ⟨((getAggregatedPriceTarget_fallback (.error "[FINNHUB] boom") (.error "[YAHOO] nope")
      (.error "[ALPHAVANTAGE] Missing API key") JsVal.vNull).2.2.2
      "[FINNHUB] boom" "[YAHOO] nope" "[ALPHAVANTAGE] Missing API key" rfl rfl rfl).trans rfl,
   ((getAggregatedPriceTarget_fallback (.ok ⟨some "finnhub", JsVal.vNum 10, JsVal.vNull,
      JsVal.vNull, JsVal.vNull⟩) (.error "x") (.error "y") JsVal.vNull).1 _ rfl).1⟩

/-! ## Theorems: analysis store TTL -/

/-- C5: for a stored row under the request's key and a positive TTL,
`getCachedAnalysis` returns the stored result exactly when the entry's
age `now - updated_at` is at most `ttlMs`, and null when the age
exceeds `ttlMs`. -/
theorem getCachedAnalysis_ttl (db : Store) (now : ℤ) (ticker baselineDate : String)
    (ttlMs : ℤ) (model : Option String) (row : StoreRow)
    (ht : ticker ≠ "") (hb : baselineDate ≠ "") (httl : 0 < ttlMs)
    (hrow : db ticker baselineDate (versionKey model) = some row) :
    (now - row.updated_at ≤ ttlMs →
      getCachedAnalysis db now ticker baselineDate ttlMs model = some row.result_json) ∧
    (ttlMs < now - row.updated_at →
      getCachedAnalysis db now ticker baselineDate ttlMs model = none) := by
  have hguard : ¬(ticker = "" ∨ baselineDate = "" ∨ ttlMs = 0) := by
    push_neg
    exact ⟨ht, hb, by omega⟩
  constructor
  · intro hage
    simp [getCachedAnalysis, hguard, hrow, not_lt.mpr hage]
  · intro hage
    simp [getCachedAnalysis, hguard, hrow, hage]

/-- C5 witness: an entry written at `t = 0` with TTL `1000` ms is a hit
(with the stored value unchanged) at `t = 999` and a miss at
`t = 1001`. -/
theorem getCachedAnalysis_ttl_witness :
    getCachedAnalysis (fun _ _ _ => some ⟨"RESULT", 0, true⟩) 999 "AAPL" "2024-01-05"
        1000 none = some "RESULT" ∧
    getCachedAnalysis (fun _ _ _ => some ⟨"RESULT", 0, true⟩) 1001 "AAPL" "2024-01-05"
        1000 none = none :=
  ⟨(getCachedAnalysis_ttl (fun _ _ _ => some ⟨"RESULT", 0, true⟩) 999 "AAPL" "2024-01-05"
      1000 none ⟨"RESULT", 0, true⟩ (by decide) (by decide) (by decide) rfl).1 (by decide),
   (getCachedAnalysis_ttl (fun _ _ _ => some ⟨"RESULT", 0, true⟩) 1001 "AAPL" "2024-01-05"
      1000 none ⟨"RESULT", 0, true⟩ (by decide) (by decide) (by decide) rfl).2 (by decide)⟩

/-! ## Theorems: momentum metrics -/

/-- C7: when the daily series sliced to the baseline date has fewer
than 60 rows, the momentum engine returns null — no partial metrics
object is ever produced on insufficient history. -/
theorem computeMomentumMetrics_insufficient (symbol : String) (s : List SeriesRow)
    (baselineDate : Option CalDate) (etfSeries : Option (List SeriesRow))
    (hlen : (sliceByDate s baselineDate).length < 60) :
    computeMomentumMetrics symbol (some s) baselineDate etfSeries = none := by
  by_cases hz : s.length = 0
  · simp [computeMomentumMetrics, hz]
  · simp [computeMomentumMetrics, hz, hlen]

/-- C7 witness: an empty fetched series has an empty slice, hence the
engine reports no data. -/
theorem computeMomentumMetrics_insufficient_witness :
    computeMomentumMetrics "NVDA" (some []) none none = none :=
  computeMomentumMetrics_insufficient "NVDA" [] none none (by decide)

/-- C8 helper: when no day-over-day decrease occurs among the `period`
most recent diffs, the loss accumulator is zero. -/
theorem rsiLosses_eq_zero (s : List SeriesRow) (period : ℕ)
    (hmono : ∀ i < period, (s.getD (i + 1) rowDefault).close ≤ (s.getD i rowDefault).close) :
    rsiLosses s period = 0 := by
  apply List.sum_eq_zero
  intro x hx
  simp only [List.mem_map, List.mem_range] at hx
  obtain ⟨i, hi, rfl⟩ := hx
  have hd := hmono i hi
  rw [if_pos (sub_nonneg.mpr hd)]

/-- C8: on a newest-first series of at least 15 rows with no
day-over-day close decrease across the 14 most recent diffs, the
average loss is zero and RSI(14) is exactly 100. -/
theorem calcRSI_no_losses (s : List SeriesRow) (hlen : 15 ≤ s.length)
    (hmono : ∀ i < 14, (s.getD (i + 1) rowDefault).close ≤ (s.getD i rowDefault).close) :
    calcRSI s 14 = some 100 := by
  have hlosses : rsiLosses s 14 = 0 := rsiLosses_eq_zero s 14 hmono
  have hlen' : ¬(s.length ≤ 14) := by omega
  simp [calcRSI, hlen', hlosses]

/-- C8 witness: a 15-row constant-close series (every diff is zero, so
no decrease) has RSI exactly 100. -/
theorem calcRSI_no_losses_witness :
    calcRSI (List.replicate 15 ⟨⟨2024, 1, 1⟩, 5, 6, 4, 100⟩) 14 = some 100 :=
  calcRSI_no_losses (List.replicate 15 ⟨⟨2024, 1, 1⟩, 5, 6, 4, 100⟩) (by decide) (by decide)

/-! ## Theorems: batch request deduplication -/

/-- A key found in the memo stays bound to the same invocation id after
a dedup step: steps never overwrite an existing entry. -/
theorem memoLookup_dedupStep (m : Memo) (nextId : ℕ) (key k : String) (c : ℕ)
    (h : memoLookup k m = some c) :
    memoLookup k (dedupStep m nextId key).1 = some c := by
  unfold dedupStep
  cases hl : memoLookup key m with
  | some cid => simpa using h
  | none =>
    by_cases hk : key = k
    · subst hk
      rw [h] at hl
      cases hl
    · simpa [memoLookup, hk] using h

/-- After a dedup step for `key`, the memo binds `key` to the invocation
id handed to the row. -/
theorem memoLookup_dedupStep_self (m : Memo) (nextId : ℕ) (key : String) :
    memoLookup key (dedupStep m nextId key).1 = some (dedupStep m nextId key).2.2 := by
  unfold dedupStep
  cases hl : memoLookup key m with
  | some cid => simpa using hl
  | none => simp [memoLookup]

/-- Memo entries survive the rest of the run unchanged. -/
theorem memoLookup_runBatch (d : String) (a : List String) (ts : List BatchTask)
    (m : Memo) (n : ℕ) (k : String) (c : ℕ) (h : memoLookup k m = some c) :
    memoLookup k (runBatch d a ts m n).1 = some c := by
  induction ts generalizing m n with
  | nil => simpa [runBatch] using h
  | cons t ts ih =>
    rw [runBatch]
    exact ih _ _ (memoLookup_dedupStep m n (batchKey d a t) k c h)

/-- The run assigns every task exactly as many ids as there are tasks. -/
theorem runBatch_length (d : String) (a : List String) (ts : List BatchTask)
    (m : Memo) (n : ℕ) : (runBatch d a ts m n).2.length = ts.length := by
  induction ts generalizing m n with
  | nil => rfl
  | cons t ts ih =>
    rw [runBatch]
    simpa using ih _ _

/-- Each row's assigned invocation id is the final memo's binding for
its key: the row awaits exactly the memoized invocation of its key. -/
theorem runBatch_assignment (d : String) (a : List String) (ts : List BatchTask)
    (m : Memo) (n : ℕ) (i : ℕ) (hi : i < ts.length) :
    memoLookup (batchKey d a (ts.get ⟨i, hi⟩)) (runBatch d a ts m n).1
      = some ((runBatch d a ts m n).2.getD i 0) := by
  induction ts generalizing m n i with
  | nil => exact absurd hi (by simp)
  | cons t ts ih =>
    cases i with
    | zero =>
      rw [runBatch]
      simp only [List.get, List.getD_cons_zero]
      exact memoLookup_runBatch d a ts _ _ _ _ (memoLookup_dedupStep_self m n (batchKey d a t))
    | succ i =>
      rw [runBatch]
      simp only [List.get, List.getD_cons_succ]
      exact ih _ _ i (Nat.lt_of_succ_lt_succ hi)

/-- A key absent from the memo has no entries at all. -/
theorem memoCount_of_lookup_none (m : Memo) (k : String)
    (h : memoLookup k m = none) :
    m.countP (fun p => decide (p.1 = k)) = 0 := by
  induction m with
  | nil => rfl
  | cons p rest ih =>
    rw [memoLookup] at h
    by_cases hk : p.1 = k
    · rw [if_pos hk] at h
      cases h
    · rw [if_neg hk] at h
      rw [List.countP_cons]
      simp [hk, ih h]

/-- Invariant: at most one memo entry (one `performAnalysis`
invocation) per key, preserved by every dedup step. -/
theorem memoCount_dedupStep (m : Memo) (nextId : ℕ) (key k : String)
    (h : m.countP (fun p => decide (p.1 = k)) ≤ 1) :
    (dedupStep m nextId key).1.countP (fun p => decide (p.1 = k)) ≤ 1 := by
  unfold dedupStep
  cases hl : memoLookup key m with
  | some cid => simpa using h
  | none =>
    simp only [List.countP_cons]
    by_cases hk : key = k
    · subst hk
      simp [memoCount_of_lookup_none m key hl]
    · simpa [hk] using h

/-- The per-key invocation bound holds at the end of any run. -/
theorem memoCount_runBatch (d : String) (a : List String) (ts : List BatchTask)
    (m : Memo) (n : ℕ) (k : String)
    (h : m.countP (fun p => decide (p.1 = k)) ≤ 1) :
    (runBatch d a ts m n).1.countP (fun p => decide (p.1 = k)) ≤ 1 := by
  induction ts generalizing m n with
  | nil => simpa [runBatch] using h
  | cons t ts ih =>
    rw [runBatch]
    exact ih _ _ (memoCount_dedupStep m n (batchKey d a t) k h)

/-- C6: in a single batch run (the dedup steps executing in any order),
two rows whose uppercased ticker, normalized date and resolved model
agree are assigned the same invocation id, that id is the memoized
entry for their key, and at most one `performAnalysis` invocation is
ever recorded for that key. -/
theorem batch_dedup (defaultModel : String) (allowed : List String)
    (tasks : List BatchTask) (i j : ℕ) (hi : i < tasks.length) (hj : j < tasks.length)
    (hticker : (tasks.get ⟨i, hi⟩).ticker.toUpper = (tasks.get ⟨j, hj⟩).ticker.toUpper)
    (hdate : (tasks.get ⟨i, hi⟩).date = (tasks.get ⟨j, hj⟩).date)
    (hmodel : resolveModelName defaultModel allowed (tasks.get ⟨i, hi⟩).model
      = resolveModelName defaultModel allowed (tasks.get ⟨j, hj⟩).model) :
    (runBatch defaultModel allowed tasks [] 0).2.getD i 0
      = (runBatch defaultModel allowed tasks [] 0).2.getD j 0 ∧
    memoLookup (batchKey defaultModel allowed (tasks.get ⟨i, hi⟩))
        (runBatch defaultModel allowed tasks [] 0).1
      = some ((runBatch defaultModel allowed tasks [] 0).2.getD i 0) ∧
    (runBatch defaultModel allowed tasks [] 0).1.countP
        (fun p => decide (p.1 = batchKey defaultModel allowed (tasks.get ⟨i, hi⟩))) ≤ 1 := by
  have hkey : batchKey defaultModel allowed (tasks.get ⟨i, hi⟩)
      = batchKey defaultModel allowed (tasks.get ⟨j, hj⟩) := by
    unfold batchKey
    rw [hticker, hdate, hmodel]
  have h1 := runBatch_assignment defaultModel allowed tasks [] 0 i hi
  have h2 := runBatch_assignment defaultModel allowed tasks [] 0 j hj
  rw [hkey] at h1
  rw [h1] at h2
  refine ⟨Option.some.inj h2, ?_, ?_⟩
  · rw [hkey]
    exact runBatch_assignment defaultModel allowed tasks [] 0 j hj |>.trans (by rw [← Option.some.inj h2])
  · exact memoCount_runBatch defaultModel allowed tasks [] 0 _ (by simp)

/-- C6 witness: two identical rows (same ticker, date and model) in one
batch share one invocation id, bound in the memo, with at most one
invocation recorded for their key. -/
theorem batch_dedup_witness :
    (runBatch "X" ["X"] [⟨"AAPL", "2024-01-05", "X"⟩, ⟨"AAPL", "2024-01-05", "X"⟩] [] 0).2.getD 0 0
      = (runBatch "X" ["X"] [⟨"AAPL", "2024-01-05", "X"⟩, ⟨"AAPL", "2024-01-05", "X"⟩] [] 0).2.getD 1 0 ∧
    memoLookup (batchKey "X" ["X"] (([⟨"AAPL", "2024-01-05", "X"⟩, ⟨"AAPL", "2024-01-05", "X"⟩] :
          List BatchTask).get ⟨0, by decide⟩))
        (runBatch "X" ["X"] [⟨"AAPL", "2024-01-05", "X"⟩, ⟨"AAPL", "2024-01-05", "X"⟩] [] 0).1
      = some ((runBatch "X" ["X"] [⟨"AAPL", "2024-01-05", "X"⟩, ⟨"AAPL", "2024-01-05", "X"⟩] [] 0).2.getD 0 0) ∧
    (runBatch "X" ["X"] [⟨"AAPL", "2024-01-05", "X"⟩, ⟨"AAPL", "2024-01-05", "X"⟩] [] 0).1.countP
        (fun p => decide (p.1 = batchKey "X" ["X"] (([⟨"AAPL", "2024-01-05", "X"⟩,
          ⟨"AAPL", "2024-01-05", "X"⟩] : List BatchTask).get ⟨0, by decide⟩))) ≤ 1 :=
  batch_dedup "X" ["X"] [⟨"AAPL", "2024-01-05", "X"⟩, ⟨"AAPL", "2024-01-05", "X"⟩]
    0 1 (by decide) (by decide) rfl rfl rfl

/-! ## Theorems: key-event classification -/

/-- Unfolding of the day-granularity date order. -/
theorem dateLeb_iff (a b : CalDate) : dateLeb a b = true ↔
    (a.year < b.year ∨ (a.year = b.year ∧
      (a.month < b.month ∨ (a.month = b.month ∧ a.day ≤ b.day)))) := by
  unfold dateLeb
  split_ifs <;> simp_all <;> omega

/-- The date order is reflexive. -/
theorem dateLeb_refl (a : CalDate) : dateLeb a a = true := by
  rw [dateLeb_iff]
  omega

/-- The date order is transitive. -/
theorem dateLeb_trans (a b c : CalDate) (h1 : dateLeb a b = true)
    (h2 : dateLeb b c = true) : dateLeb a c = true := by
  rw [dateLeb_iff] at h1 h2 ⊢
  omega

/-- The date order is total. -/
theorem dateLeb_total (a b : CalDate) : dateLeb a b = true ∨ dateLeb b a = true := by
  rw [dateLeb_iff, dateLeb_iff]
  omega

/-- Membership in a stable descending insert. -/
theorem mem_insertDesc (e : Event) (l : List Event) (y : Event) :
    y ∈ insertDesc e l ↔ y = e ∨ y ∈ l := by
  induction l with
  | nil => simp [insertDesc]
  | cons x xs ih =>
    rw [insertDesc]
    split_ifs with h
    · simp [List.mem_cons]
    · rw [List.mem_cons, ih, List.mem_cons]
      tauto

/-- Inserting into a newest-first list keeps it newest first. -/
theorem pairwise_insertDesc (e : Event) (l : List Event)
    (hl : l.Pairwise (fun x y => dateLeb (eventDate y) (eventDate x) = true)) :
    (insertDesc e l).Pairwise (fun x y => dateLeb (eventDate y) (eventDate x) = true) := by
  induction l with
  | nil => simp [insertDesc]
  | cons x xs ih =>
    rw [List.pairwise_cons] at hl
    obtain ⟨hx, hxs⟩ := hl
    by_cases hcmp : dateLeb (eventDate x) (eventDate e) = true
    · rw [insertDesc, if_pos hcmp]
      refine List.Pairwise.cons ?_ (List.Pairwise.cons hx hxs)
      intro y hy
      rcases List.mem_cons.mp hy with rfl | hy'
      · exact hcmp
      · exact dateLeb_trans _ _ _ (hx y hy') hcmp
    · rw [insertDesc, if_neg hcmp]
      refine List.Pairwise.cons ?_ (ih hxs)
      intro y hy
      rcases (mem_insertDesc e xs y).mp hy with rfl | hy'
      · rcases dateLeb_total (eventDate x) (eventDate y) with h | h
        · exact absurd h hcmp
        · exact h
      · exact hx y hy'

/-- The stable descending sort is newest first. -/
theorem pairwise_sortDesc (l : List Event) :
    (sortDesc l).Pairwise (fun x y => dateLeb (eventDate y) (eventDate x) = true) := by
  induction l with
  | nil => simp [sortDesc]
  | cons x xs ih =>
    rw [sortDesc]
    exact pairwise_insertDesc x (sortDesc xs) ih

/-- The windowed, capped event list handed to the classifier is newest
first. -/
theorem pairwise_filterRecent_take (events : List Event) (base : CalDate) (n : ℕ) :
    ((filterRecent events base).take n).Pairwise
      (fun x y => dateLeb (eventDate y) (eventDate x) = true) := by
  have hsorted : (filterRecent events base).Pairwise
      (fun x y => dateLeb (eventDate y) (eventDate x) = true) := by
    unfold filterRecent
    exact pairwise_sortDesc _
  exact hsorted.sublist (List.take_sublist n _)

/-- C9 counterexample: with no LLM credential, the fallback primary is
the *most recent* event of the window, not the first chronological one.
Baseline 2024-01-15 with events dated 2024-01-10 and 2024-01-20: the
first chronological event is the Jan 10 one, but the bundle's primary
is the Jan 20 event. -/
theorem buildKeyEvents_newest_first_counterexample :
    (buildKeyEvents none (.ok [⟨"news", some ⟨2024, 1, 10⟩, "early", "", "GDELT"⟩,
        ⟨"news", some ⟨2024, 1, 20⟩, "late", "", "GDELT"⟩]) ⟨2024, 1, 15⟩ ""
        (.error "no key")).primary
      = some ⟨"news", some ⟨2024, 1, 20⟩, "late", "", "GDELT"⟩ ∧
    (buildKeyEvents none (.ok [⟨"news", some ⟨2024, 1, 10⟩, "early", "", "GDELT"⟩,
        ⟨"news", some ⟨2024, 1, 20⟩, "late", "", "GDELT"⟩]) ⟨2024, 1, 15⟩ ""
        (.error "no key")).primary
      ≠ some ⟨"news", some ⟨2024, 1, 10⟩, "early", "", "GDELT"⟩ ∧
    (buildKeyEvents none (.ok [⟨"news", some ⟨2024, 1, 10⟩, "early", "", "GDELT"⟩,
        ⟨"news", some ⟨2024, 1, 20⟩, "late", "", "GDELT"⟩]) ⟨2024, 1, 15⟩ ""
        (.error "no key")).details
      = [⟨"news", some ⟨2024, 1, 10⟩, "early", "", "GDELT"⟩] := by
  refine ⟨?_, ?_, ?_⟩ <;> decide

/-- C9 (amended): without an LLM credential (or when the LLM
classification call fails), `buildKeyEvents` on successfully fetched
events still returns a well-formed bundle, never an exception: an empty
window yields the degraded empty bundle, and otherwise the *most
recent* event of the ±1-month window (the head of the newest-first
ordering) is primary, the remaining (older) events are the details, and
the raw window is attached. -/
theorem buildKeyEvents_degraded (combined : List Event) (base : CalDate)
    (openKey : String) (llm : Except String ClsParsed)
    (hdeg : openKey = "" ∨ ∃ msg, llm = .error msg) :
    ((filterRecent combined base).take 10 = [] →
      buildKeyEvents none (.ok combined) base openKey llm
        = ⟨none, [], "（近一月無重大事件）", []⟩) ∧
    (∀ hd tl, (filterRecent combined base).take 10 = hd :: tl →
      (buildKeyEvents none (.ok combined) base openKey llm).primary = some hd ∧
      (buildKeyEvents none (.ok combined) base openKey llm).details = tl ∧
      (buildKeyEvents none (.ok combined) base openKey llm).raw_events = hd :: tl ∧
      ∀ y ∈ hd :: tl, dateLeb (eventDate y) (eventDate hd) = true) := by
  constructor
  · intro hempty
    simp [buildKeyEvents, hempty, classifyEvents]
  · intro hd tl hcons
    have hpw : (hd :: tl).Pairwise
        (fun x y => dateLeb (eventDate y) (eventDate x) = true) := by
      rw [← hcons]
      exact pairwise_filterRecent_take combined base 10
    have hmax : ∀ y ∈ hd :: tl, dateLeb (eventDate y) (eventDate hd) = true := by
      intro y hy
      rcases List.mem_cons.mp hy with rfl | hy'
      · exact dateLeb_refl _
      · exact (List.pairwise_cons.mp hpw).1 y hy'
    rcases hdeg with hkey | ⟨msg, hllm⟩
    · subst hkey
      refine ⟨?_, ?_, ?_, hmax⟩ <;> simp [buildKeyEvents, hcons, classifyEvents]
    · subst hllm
      by_cases hkey : openKey = ""
      · subst hkey
        refine ⟨?_, ?_, ?_, hmax⟩ <;> simp [buildKeyEvents, hcons, classifyEvents]
      · refine ⟨?_, ?_, ?_, hmax⟩ <;> simp [buildKeyEvents, hcons, classifyEvents, hkey]

/-- C9 witness: baseline 2024-01-15, no LLM key, one in-window event:
it becomes primary with no details; the head is maximal. -/
theorem buildKeyEvents_degraded_witness :
    (buildKeyEvents none (.ok [⟨"news", some ⟨2024, 1, 10⟩, "early", "", "GDELT"⟩])
        ⟨2024, 1, 15⟩ "" (.error "no key")).primary
      = some ⟨"news", some ⟨2024, 1, 10⟩, "early", "", "GDELT"⟩ ∧
    (buildKeyEvents none (.ok [⟨"news", some ⟨2024, 1, 10⟩, "early", "", "GDELT"⟩])
        ⟨2024, 1, 15⟩ "" (.error "no key")).details = [] ∧
    (buildKeyEvents none (.ok [⟨"news", some ⟨2024, 1, 10⟩, "early", "", "GDELT"⟩])
        ⟨2024, 1, 15⟩ "" (.error "no key")).raw_events
      = [⟨"news", some ⟨2024, 1, 10⟩, "early", "", "GDELT"⟩] ∧
    ∀ y ∈ [(⟨"news", some ⟨2024, 1, 10⟩, "early", "", "GDELT"⟩ : Event)],
      dateLeb (eventDate y) (eventDate ⟨"news", some ⟨2024, 1, 10⟩, "early", "", "GDELT"⟩)
        = true :=
  (buildKeyEvents_degraded [⟨"news", some ⟨2024, 1, 10⟩, "early", "", "GDELT"⟩]
      ⟨2024, 1, 15⟩ "" (.error "no key") (Or.inl rfl)).2
    ⟨"news", some ⟨2024, 1, 10⟩, "early", "", "GDELT"⟩ [] (by decide)

end EquityAnalyzer
